import Mathlib

/-!
A shallow embedding of the ERC20 tutorial chaincode (`chaincode.go`) over a
key-value world state, together with a verification of its specified
properties.

The world state is an association list from string keys to string values
(byte slices are modelled as strings).  The host-ledger stub is modelled by a
`Stub` record holding the state, the emitted events, and failure oracles for
the fallible store primitives (`GetState`, `PutState`, `SetEvent`); a call
fails exactly when its oracle says so, with a fixed model error message.

Go `int` values are 64-bit and wrap on overflow; they are modelled as `Int`
with an explicit two's-complement reduction `wrap64`.  `strconv.Atoi` and
`strconv.ParseUint` are modelled including their range checks.  Go runtime
panics from out-of-range slice indexing are modelled by the operations
returning `none`.

`json.Marshal` of the metadata / event / insurance records is modelled on
strings that need no JSON escaping (all strings reachable in the verified
scenarios); `json.Unmarshal` into the metadata struct is modelled as a parser
of the canonical encoding which, like Go, rejects `nil` input and any input
that is not a JSON object (in particular a bare number).

The composite-key codec and the partial-composite-key range scan model the
host ledger interface consumed by the code (`CreateCompositeKey`,
`SplitCompositeKey`, `GetStateByPartialCompositeKey`): keys are
`NUL ++ objectType ++ NUL ++ attr₁ ++ NUL ++ ... ++ attrₙ ++ NUL`, attributes
must not contain U+10FFFF, and the scan returns all entries whose key extends
the partial composite key, ordered by key.
-/

/-- NUL, the composite-key delimiter of the host ledger. -/
def nulChar : Char := Char.ofNat 0

/-- U+10FFFF, the maximum unicode rune; forbidden inside composite-key
attributes by the host ledger. -/
def maxRune : Char := Char.ofNat 1114111

/-- The left-brace character, by code point. -/
def lbraceC : Char := Char.ofNat 123

/-- The right-brace character, by code point. -/
def rbraceC : Char := Char.ofNat 125

/-- The one-character string holding the composite-key delimiter. -/
def nulStr : String := String.mk [nulChar]

/-- Base-10 value of a list of digit characters. -/
def digitsToNat (ds : List Char) : Nat :=
  ds.foldl (fun a c => 10 * a + (c.toNat - 48)) 0

/-- Model of Go `strconv.Atoi` on a 64-bit platform: an optional sign
followed by at least one digit, value within the `int64` range. -/
def atoi (s : String) : Option Int :=
  match s.data with
  | [] => none
  | c :: cs =>
    let sd : Int × List Char :=
      if c = Char.ofNat 45 then (-1, cs)
      else if c = Char.ofNat 43 then (1, cs)
      else (1, c :: cs)
    if sd.2 ≠ [] ∧ sd.2.all Char.isDigit then
      let v : Int := sd.1 * (digitsToNat sd.2 : Int)
      if -(2 ^ 63) ≤ v ∧ v ≤ 2 ^ 63 - 1 then some v else none
    else none

/-- Model of Go `strconv.ParseUint(s, 10, 64)`: digits only (no sign),
value below `2^64`. -/
def parseUint64 (s : String) : Option Nat :=
  if s.data ≠ [] ∧ s.data.all Char.isDigit ∧ digitsToNat s.data < 2 ^ 64 then
    some (digitsToNat s.data)
  else none

/-- Two's-complement wrap-around of 64-bit Go `int` arithmetic. -/
def wrap64 (x : Int) : Int := (x + 2 ^ 63) % 2 ^ 64 - 2 ^ 63

/-- First-match lookup in the association-list world state. -/
def stGet : List (String × String) → String → Option String
  | [], _ => none
  | (k', v) :: rest, k => if k' = k then some v else stGet rest k

/-- Key update in the association-list world state: replaces the existing
binding for the key, or appends a new one. -/
def stPut : List (String × String) → String → String → List (String × String)
  | [], k, v => [(k, v)]
  | (k', v') :: rest, k, v =>
    if k' = k then (k, v) :: rest else (k', v') :: stPut rest k v

/-- The chaincode stub: world state, emitted events, and failure oracles for
the fallible store primitives. -/
structure Stub where
  state : List (String × String)
  events : List (String × String)
  getFails : String → Bool
  putFails : String → Bool
  eventFails : Bool

/-- `stub.GetState`: fails when the oracle says so, otherwise returns the
stored bytes (`none` models a `nil` byte slice for an absent key). -/
def getState (stub : Stub) (k : String) : Except String (Option String) :=
  if stub.getFails k then Except.error "GetState failed"
  else Except.ok (stGet stub.state k)

/-- `stub.PutState`: fails when the oracle says so (leaving the state
unchanged), otherwise updates the key. -/
def putState (stub : Stub) (k v : String) : Except String Stub :=
  if stub.putFails k then Except.error "PutState failed"
  else Except.ok { stub with state := stPut stub.state k v }

/-- `stub.SetEvent`: fails when the oracle says so, otherwise records the
named event payload. -/
def setEvent (stub : Stub) (name payload : String) : Except String Stub :=
  if stub.eventFails then Except.error "SetEvent failed"
  else Except.ok { stub with events := stub.events ++ [(name, payload)] }

/-- A peer response: status code, message, payload
(`shim.Success` / `shim.Error` / the 404 dispatch default). -/
structure Response where
  status : Nat
  message : String
  payload : Option String
  deriving DecidableEq

namespace shim

/-- `shim.Success(payload)`: status 200. -/
def Success (payload : Option String) : Response :=
  { status := 200, message := "", payload := payload }

/-- `shim.Error(msg)`: status 500, no payload. -/
def Error (msg : String) : Response :=
  { status := 500, message := msg, payload := none }

end shim

/-- A composite-key attribute is valid when it does not contain the maximum
unicode rune (host-ledger validation rule). -/
def validAttr (s : String) : Bool := s.data.all (fun c => c != maxRune)

/-- `stub.CreateCompositeKey`: `NUL ++ objectType ++ NUL ++ attr₁ ++ NUL ++ ...`,
failing (with a `""` key at the ignoring call site) when validation fails. -/
def CreateCompositeKey (objectType : String) (attributes : List String) :
    Except String String :=
  if validAttr objectType && attributes.all validAttr then
    Except.ok (nulStr ++ objectType ++ nulStr ++
      String.join (attributes.map (fun a => a ++ nulStr)))
  else Except.error "invalid composite key attribute"

/-- Segments of a character list delimited by NUL; only segments terminated
by a NUL are produced, matching the host ledger's split loop. -/
def nulSegmentsAux : List Char → List Char → List String
  | [], _ => []
  | c :: rest, acc =>
    if c = nulChar then String.mk acc.reverse :: nulSegmentsAux rest []
    else nulSegmentsAux rest (c :: acc)

/-- `stub.SplitCompositeKey`: drops the leading namespace byte, splits the
rest at NUL, and returns (objectType, attributes).  `none` models the runtime
panic on a key with no complete component. -/
def splitCompositeKey (key : String) : Option (String × List String) :=
  match nulSegmentsAux (key.data.drop 1) [] with
  | [] => none
  | objectType :: attrs => some (objectType, attrs)

/-- Ordered insertion by key (used to model the store's key-ordered scan). -/
def insertSorted (x : String × String) :
    List (String × String) → List (String × String)
  | [] => [x]
  | y :: ys => if x.1 < y.1 ∨ x.1 = y.1 then x :: y :: ys else y :: insertSorted x ys

/-- Sort an entry list by key. -/
def sortByKey (l : List (String × String)) : List (String × String) :=
  l.foldr insertSorted []

/-- `stub.GetStateByPartialCompositeKey`: builds the partial composite key
(propagating its validation failure, which the caller checks) and returns all
state entries whose key extends it, ordered by key. -/
def getStateByPartialCompositeKey (stub : Stub) (objectType : String)
    (attributes : List String) : Except String (List (String × String)) :=
  match CreateCompositeKey objectType attributes with
  | Except.error e => Except.error e
  | Except.ok pfx =>
    Except.ok (sortByKey (stub.state.filter (fun kv => pfx.data.isPrefixOf kv.1.data)))

/-- ERC20Metadata: the token meta info record. -/
structure ERC20Metadata where
  Name : String
  Symbol : String
  Owner : String
  TotalSupply : Nat
  deriving DecidableEq

/-- JSON quoting of a string that needs no escaping. -/
def jsonQuote (s : String) : String := "\"" ++ s ++ "\""

/-- `json.Marshal` of an `ERC20Metadata` record (canonical field order). -/
def jsonMarshalMetadata (m : ERC20Metadata) : String :=
  "\x7b\"name\":" ++ jsonQuote m.Name ++ ",\"symbol\":" ++ jsonQuote m.Symbol ++
    ",\"owner\":" ++ jsonQuote m.Owner ++ ",\"totalSupply\":" ++
    toString m.TotalSupply ++ "\x7d"

/-- Matches an exact expected character sequence, returning the rest. -/
def parseExact : List Char → List Char → Option (List Char)
  | [], s => some s
  | _ :: _, [] => none
  | c :: cs, d :: ds => if c = d then parseExact cs ds else none

/-- Consumes characters up to a closing quote (no escapes). -/
def takeUntilQuote : List Char → Option (List Char × List Char)
  | [] => none
  | c :: cs =>
    if c = Char.ofNat 34 then some ([], cs)
    else if c = Char.ofNat 92 then none
    else
      match takeUntilQuote cs with
      | none => none
      | some (pre, rest) => some (c :: pre, rest)

/-- Takes a maximal run of digits. -/
def takeDigits : List Char → List Char × List Char
  | [] => ([], [])
  | c :: cs =>
    if c.isDigit then
      match takeDigits cs with
      | (ds, r) => (c :: ds, r)
    else ([], c :: cs)

/-- `json.Unmarshal` of state bytes into an `ERC20Metadata` struct: rejects
`nil` bytes and any input that is not a JSON object in the canonical
encoding; in particular (as in Go) a bare number is rejected. -/
def jsonUnmarshalMetadata (b : Option String) : Option ERC20Metadata :=
  match b with
  | none => none
  | some s =>
    match parseExact (lbraceC :: "\"name\":\"".data) s.data with
    | none => none
    | some r1 =>
    match takeUntilQuote r1 with
    | none => none
    | some (nm, r2) =>
    match parseExact ",\"symbol\":\"".data r2 with
    | none => none
    | some r3 =>
    match takeUntilQuote r3 with
    | none => none
    | some (sy, r4) =>
    match parseExact ",\"owner\":\"".data r4 with
    | none => none
    | some r5 =>
    match takeUntilQuote r5 with
    | none => none
    | some (ow, r6) =>
    match parseExact ",\"totalSupply\":".data r6 with
    | none => none
    | some r7 =>
    match takeDigits r7 with
    | (ds, r8) =>
      if ds ≠ [] ∧ digitsToNat ds < 2 ^ 64 ∧ r8 = [rbraceC] then
        some ⟨String.mk nm, String.mk sy, String.mk ow, digitsToNat ds⟩
      else none

/-- TransferEvent: the event payload record of a successful transfer. -/
structure TransferEvent where
  Sender : String
  Recipient : String
  Amount : Int

/-- `json.Marshal` of a `TransferEvent`. -/
def jsonMarshalTransferEvent (e : TransferEvent) : String :=
  "\x7b\"sender\":" ++ jsonQuote e.Sender ++ ",\"recipient\":" ++
    jsonQuote e.Recipient ++ ",\"amount\":" ++ toString e.Amount ++ "\x7d"

/-- The local `Insurance` record of `approve` (name, raw amount string). -/
structure Insurance where
  Name : String
  Amount : String
  deriving DecidableEq

/-- `json.Marshal` of one `Insurance` record. -/
def jsonMarshalInsurance (i : Insurance) : String :=
  "\x7b\"name\":" ++ jsonQuote i.Name ++ ",\"amount\":" ++ jsonQuote i.Amount ++ "\x7d"

/-- `json.Marshal` of an `Insurance` slice. -/
def jsonMarshalInsuranceList (l : List Insurance) : String :=
  "[" ++ String.intercalate "," (l.map jsonMarshalInsurance) ++ "]"

/-- `Init`: params are tokenName, symbol, owner, amount; parses the amount,
checks non-emptiness, writes the metadata under `tokenName` and then the
owner's balance under `owner`. -/
def Init (stub : Stub) (params : List String) : Option (Response × Stub) :=
  match params with
  | [tokenName, symbol, owner, amount] =>
    match parseUint64 amount with
    | none => some (shim.Error "amount must be a number or amount cannot be negative", stub)
    | some amountUint =>
      if tokenName = "" ∨ symbol = "" ∨ owner = "" then
        some (shim.Error "tokenName or symbol or owner cannot be emtpy", stub)
      else
        match putState stub tokenName
            (jsonMarshalMetadata ⟨tokenName, symbol, owner, amountUint⟩) with
        | Except.error e => some (shim.Error ("failed to PutState, error: " ++ e), stub)
        | Except.ok stub1 =>
          match putState stub1 owner amount with
          | Except.error e => some (shim.Error ("failed to PutState, error: " ++ e), stub1)
          | Except.ok stub2 => some (shim.Success none, stub2)
  | _ => some (shim.Error "incorrect number of parameter", stub)

/-- `totalSupply`: loads the metadata stored under the token name and returns
its totalSupply field. -/
def totalSupply (stub : Stub) (params : List String) : Option (Response × Stub) :=
  match params with
  | [tokenName] =>
    match getState stub tokenName with
    | Except.error e => some (shim.Error ("failed to GetState, error: " ++ e), stub)
    | Except.ok erc20Bytes =>
      match jsonUnmarshalMetadata erc20Bytes with
      | none => some (shim.Error "failed to Unmarshal, error: cannot unmarshal into ERC20Metadata", stub)
      | some erc20 => some (shim.Success (some (toString erc20.TotalSupply)), stub)
  | _ => some (shim.Error "incorrect number of parameter", stub)

/-- `balanceOf`: returns the stored balance bytes, or `"0"` for an absent
key. -/
def balanceOf (stub : Stub) (params : List String) : Option (Response × Stub) :=
  match params with
  | [address] =>
    match getState stub address with
    | Except.error e => some (shim.Error ("failed to GetState, error: " ++ e), stub)
    | Except.ok none => some (shim.Success (some "0"), stub)
    | Except.ok (some amountBytes) => some (shim.Success (some amountBytes), stub)
  | _ => some (shim.Error "incorrect number of parameters", stub)

/-- `transfer`: validates the amount, reads both balances (the caller's raw
bytes are parsed as-is, so an absent caller key yields the empty string; an
absent recipient key is defaulted to `"0"`), computes the 64-bit results,
checks the caller result is non-negative, writes both balances, and emits the
transfer event. -/
def transfer (stub : Stub) (params : List String) : Option (Response × Stub) :=
  match params with
  | [callerAddress, recipientAddress, transferAmount] =>
    match atoi transferAmount with
    | none => some (shim.Error "transfer amount must be integer", stub)
    | some transferAmountInt =>
      if transferAmountInt ≤ 0 then
        some (shim.Error "transfer amount must be positive", stub)
      else
        match getState stub callerAddress with
        | Except.error e => some (shim.Error ("failed to GetState, error: " ++ e), stub)
        | Except.ok callerAmount =>
          match atoi (callerAmount.getD "") with
          | none => some (shim.Error "caller amount must be integer", stub)
          | some callerAmountInt =>
            match getState stub recipientAddress with
            | Except.error e => some (shim.Error ("failed to GetState, error: " ++ e), stub)
            | Except.ok recipientAmount =>
              match atoi (recipientAmount.getD "0") with
              | none => some (shim.Error "caller amount must be integer", stub)
              | some recipientAmountInt =>
                let callerResultAmount := wrap64 (callerAmountInt - transferAmountInt)
                let recipientResultAmount := wrap64 (recipientAmountInt + transferAmountInt)
                if callerResultAmount < 0 then
                  some (shim.Error "caller\x27s balance is not sufficient", stub)
                else
                  match putState stub callerAddress (toString callerResultAmount) with
                  | Except.error e =>
                    some (shim.Error ("failed to PutState of caller, error: " ++ e), stub)
                  | Except.ok stub1 =>
                    match putState stub1 recipientAddress (toString recipientResultAmount) with
                    | Except.error e =>
                      some (shim.Error ("failed to PutState of caller, error: " ++ e), stub1)
                    | Except.ok stub2 =>
                      match setEvent stub2 "transferEvent"
                          (jsonMarshalTransferEvent
                            ⟨callerAddress, recipientAddress, transferAmountInt⟩) with
                      | Except.error e =>
                        some (shim.Error ("failed to SetEvent of TransferEvent, error: " ++ e), stub2)
                      | Except.ok stub3 =>
                        some (shim.Success (some "transfer Success"), stub3)
  | _ => some (shim.Error "incorrect number of parameters", stub)

/-- `allowance` (sets an allowance): no arity check (`none` models the index
panic on fewer than 3 params); the composite-key error and the `PutState`
result are both ignored, and success is returned unconditionally. -/
def allowance (stub : Stub) (params : List String) : Option (Response × Stub) :=
  match params with
  | id :: name :: amount :: _ =>
    let insuranceKey :=
      match CreateCompositeKey "insurance" [id, name] with
      | Except.ok k => k
      | Except.error _ => ""
    let stub1 :=
      match putState stub insuranceKey amount with
      | Except.ok s => s
      | Except.error _ => stub
    some (shim.Success none, stub1)
  | _ => none

/-- Builds the `Insurance` list from scanned entries; `none` models the
runtime panic when a key splits into fewer than 2 attributes (or none). -/
def insuranceEntries : List (String × String) → Option (List Insurance)
  | [] => some []
  | (k, v) :: rest =>
    match splitCompositeKey k with
    | none => none
    | some (_, attrs) =>
      match attrs[0]?, attrs[1]? with
      | some _, some a1 =>
        match insuranceEntries rest with
        | none => none
        | some tl => some ({ Name := a1, Amount := v } :: tl)
      | _, _ => none

/-- `approve` (lists allowances): no arity check (`none` models the index
panic on zero params); scans the `insurance` namespace by granter prefix and
returns the JSON-encoded entry list. -/
def approve (stub : Stub) (params : List String) : Option (Response × Stub) :=
  match params with
  | id :: _ =>
    match getStateByPartialCompositeKey stub "insurance" [id] with
    | Except.error e => some (shim.Error ("error: " ++ e), stub)
    | Except.ok results =>
      match insuranceEntries results with
      | none => none
      | some result => some (shim.Success (some (jsonMarshalInsuranceList result)), stub)
  | _ => none

/-- `transferFrom`: unimplemented no-op success. -/
def transferFrom (stub : Stub) (_params : List String) : Option (Response × Stub) :=
  some (shim.Success none, stub)

/-- `increaseAllowance`: unimplemented no-op success. -/
def increaseAllowance (stub : Stub) (_params : List String) : Option (Response × Stub) :=
  some (shim.Success none, stub)

/-- `decreaseAllowance`: unimplemented no-op success. -/
def decreaseAllowance (stub : Stub) (_params : List String) : Option (Response × Stub) :=
  some (shim.Success none, stub)

/-- `mint`: unimplemented no-op success. -/
def mint (stub : Stub) (_params : List String) : Option (Response × Stub) :=
  some (shim.Success none, stub)

/-- `burn`: unimplemented no-op success. -/
def burn (stub : Stub) (_params : List String) : Option (Response × Stub) :=
  some (shim.Success none, stub)

/-- A stub with the given state, no events, and no injected store failures. -/
def noFailStub (st : List (String × String)) : Stub :=
  { state := st, events := [], getFails := fun _ => false,
    putFails := fun _ => false, eventFails := false }

/-! ### Helper lemmas -/

theorem str_data_append (s t : String) : (s ++ t).data = s.data ++ t.data := by
  cases s; cases t; rfl

theorem wrap64_eq_self (x : Int) (h1 : -(2 ^ 63) ≤ x) (h2 : x < 2 ^ 63) :
    wrap64 x = x := by
  unfold wrap64
  have h3 : (0 : Int) ≤ x + 2 ^ 63 := by linarith
  have h4 : x + 2 ^ 63 < 2 ^ 64 := by
    have h5 : (2 : Int) ^ 64 = 2 ^ 63 + 2 ^ 63 := by norm_num
    linarith
  rw [Int.emod_eq_of_lt h3 h4]
  ring

theorem atoi_bounds {s : String} {n : Int} (h : atoi s = some n) :
    -(2 ^ 63) ≤ n ∧ n ≤ 2 ^ 63 - 1 := by
  unfold atoi at h
  cases hd : s.data with
  | nil => rw [hd] at h; exact absurd h (by simp)
  | cons c cs =>
    rw [hd] at h
    simp only at h
    split_ifs at h <;> (injection h with h'; rw [← h']; assumption)

theorem stGet_stPut_self (st : List (String × String)) (k v : String) :
    stGet (stPut st k v) k = some v := by
  induction st with
  | nil => simp [stPut, stGet]
  | cons kv rest ih =>
    obtain ⟨k', v'⟩ := kv
    by_cases hk : k' = k
    · subst hk; simp [stPut, stGet]
    · simp [stPut, stGet, hk, ih]

theorem filter_stPut_singleton (p : String × String → Bool)
    (st : List (String × String)) (k v : String)
    (hst : ∀ kv ∈ st, p kv = false) (hk : p (k, v) = true) :
    (stPut st k v).filter p = [(k, v)] := by
  induction st with
  | nil => simp [stPut, List.filter_cons, hk]
  | cons kv rest ih =>
    obtain ⟨k', v'⟩ := kv
    have hkv' : p (k', v') = false := hst (k', v') (by simp)
    have hrest : ∀ a ∈ rest, p a = false :=
      fun a ha => hst a (List.mem_cons_of_mem _ ha)
    by_cases hkk : k' = k
    · subst hkk
      have hstep : stPut ((k', v') :: rest) k' v = (k', v) :: rest := by
        simp [stPut]
      rw [hstep, List.filter_cons]
      have hnil : rest.filter p = [] :=
        List.filter_eq_nil_iff.mpr (fun a ha => by simp [hrest a ha])
      simp [hk, hnil]
    · have hstep : stPut ((k', v') :: rest) k v = (k', v') :: stPut rest k v := by
        simp [stPut, hkk]
      rw [hstep, List.filter_cons]
      simp only [hkv', Bool.false_eq_true, if_false]
      exact ih hrest

theorem filter_stPut_nil (p : String × String → Bool)
    (st : List (String × String)) (k v : String)
    (hst : ∀ kv ∈ st, p kv = false) (hk : p (k, v) = false) :
    (stPut st k v).filter p = [] := by
  induction st with
  | nil => simp [stPut, List.filter_cons, hk]
  | cons kv rest ih =>
    obtain ⟨k', v'⟩ := kv
    have hkv' : p (k', v') = false := hst (k', v') (by simp)
    have hrest : ∀ a ∈ rest, p a = false :=
      fun a ha => hst a (List.mem_cons_of_mem _ ha)
    by_cases hkk : k' = k
    · subst hkk
      have hstep : stPut ((k', v') :: rest) k' v = (k', v) :: rest := by
        simp [stPut]
      rw [hstep, List.filter_cons]
      have hnil : rest.filter p = [] :=
        List.filter_eq_nil_iff.mpr (fun a ha => by simp [hrest a ha])
      simp [hk, hnil]
    · have hstep : stPut ((k', v') :: rest) k v = (k', v') :: stPut rest k v := by
        simp [stPut, hkk]
      rw [hstep, List.filter_cons]
      simp only [hkv', Bool.false_eq_true, if_false]
      exact ih hrest

theorem noNul_prefix_eq (g : List Char) :
    ∀ (al rest : List Char), nulChar ∉ g → nulChar ∉ al →
    (g ++ [nulChar]) <+: (al ++ nulChar :: rest) → g = al := by
  induction g with
  | nil =>
    intro al rest _ hal h
    cases al with
    | nil => rfl
    | cons a al' =>
      obtain ⟨t, ht⟩ := h
      rw [List.nil_append, List.cons_append] at ht
      injection ht with h1 _
      exact absurd (h1 ▸ List.mem_cons_self a al') hal
  | cons c g' ih =>
    intro al rest hg hal h
    cases al with
    | nil =>
      obtain ⟨t, ht⟩ := h
      rw [List.cons_append, List.nil_append] at ht
      injection ht with h1 _
      exact absurd (h1 ▸ List.mem_cons_self c g') hg
    | cons a al' =>
      obtain ⟨t, ht⟩ := h
      rw [List.cons_append, List.cons_append] at ht
      injection ht with h1 h2
      subst h1
      have hg' : nulChar ∉ g' := fun hm => hg (List.mem_cons_of_mem _ hm)
      have hal' : nulChar ∉ al' := fun hm => hal (List.mem_cons_of_mem _ hm)
      rw [ih al' rest hg' hal' ⟨t, h2⟩]

theorem jsonUnmarshalMetadata_digits {s : String} {v : Nat}
    (h : parseUint64 s = some v) : jsonUnmarshalMetadata (some s) = none := by
  unfold parseUint64 at h
  split_ifs at h with hcond
  case pos =>
    obtain ⟨hne, hdig, _⟩ := hcond
    cases hd : s.data with
    | nil => exact absurd hd hne
    | cons c cs =>
      have hc : c.isDigit = true := by
        rw [hd, List.all_cons, Bool.and_eq_true] at hdig
        exact hdig.1
      have hpe : parseExact (lbraceC :: "\"name\":\"".data) s.data = none := by
        rw [hd]
        unfold parseExact
        rw [if_neg (fun he => by rw [← he] at hc; exact absurd hc (by decide))]
      simp only [jsonUnmarshalMetadata, hpe]

theorem transfer_success_path (stub : Stub) (c r a : String) (n b rb : Int)
    (hgc : stub.getFails c = false) (hgr : stub.getFails r = false)
    (hpc : stub.putFails c = false) (hpr : stub.putFails r = false)
    (hev : stub.eventFails = false)
    (ha : atoi a = some n) (hn : 0 < n)
    (hb : atoi ((stGet stub.state c).getD "") = some b)
    (hrb : atoi ((stGet stub.state r).getD "0") = some rb)
    (hok : 0 ≤ wrap64 (b - n)) :
    transfer stub [c, r, a] =
      some (shim.Success (some "transfer Success"),
        { stub with
          state := stPut (stPut stub.state c (toString (wrap64 (b - n)))) r
                    (toString (wrap64 (rb + n))),
          events := stub.events ++
            [("transferEvent", jsonMarshalTransferEvent ⟨c, r, n⟩)] }) := by
  have hn' : ¬ n ≤ 0 := not_le.mpr hn
  simp only [transfer, getState, putState, setEvent, ha, hgc, hgr, hpc, hpr, hev,
    Bool.false_eq_true, if_false, hb, hrb, if_neg hn', if_neg (not_lt.mpr hok)]

theorem transfer_insufficient (stub : Stub) (c r a : String) (n b rb : Int)
    (hgc : stub.getFails c = false) (hgr : stub.getFails r = false)
    (ha : atoi a = some n) (hn : 0 < n)
    (hb : atoi ((stGet stub.state c).getD "") = some b)
    (hrb : atoi ((stGet stub.state r).getD "0") = some rb)
    (hbad : wrap64 (b - n) < 0) :
    transfer stub [c, r, a] =
      some (shim.Error "caller\x27s balance is not sufficient", stub) := by
  have hn' : ¬ n ≤ 0 := not_le.mpr hn
  simp only [transfer, getState, ha, hgc, hgr, Bool.false_eq_true, if_false,
    hb, hrb, if_neg hn', if_pos hbad]

/-! ### Claim theorems -/

/-- The state for the self-transfer conservation violation: alice holds 10. -/
def c1Stub : Stub := noFailStub [("alice", "10")]

/-- C1: evaluation of the code at the failing input of the conservation
claim.  With alice holding 10, the self-transfer `transfer("alice","alice","5")`
returns success and leaves alice's stored balance at 15: the write of the
recipient result overwrites the write of the caller result, so the transferred
amount is minted rather than conserved. -/
theorem C1_self_transfer_inflates :
    stGet c1Stub.state "alice" = some "10" ∧
    (transfer c1Stub ["alice", "alice", "5"]).map
        (fun res => (res.1.status, res.1.payload, stGet res.2.state "alice")) =
      some (200, some "transfer Success", some "15") :=
  ⟨rfl, by decide⟩

/-- C2 counterexample: from a state with no balance record for the caller,
a positive transfer is rejected with the integer-parse error, not with the
insufficient-funds error the claim names. -/
theorem C2_absent_caller_cx :
    transfer (noFailStub []) ["alice", "bob", "5"] =
      some (shim.Error "caller amount must be integer", noFailStub []) ∧
    shim.Error "caller amount must be integer" ≠
      shim.Error "caller\x27s balance is not sufficient" :=
  ⟨rfl, by decide⟩

/-- C2 amended: an absent caller balance key is not read as 0: its empty
bytes fail integer parsing, so the transfer is rejected with the parse error
`caller amount must be integer` (before the sufficiency check), leaving the
state unchanged; an absent recipient balance is read as 0, so a valid
transfer to an unknown recipient succeeds and stores exactly the transferred
amount under the recipient key. -/
theorem C2_amended :
    (∀ (stub : Stub) (c r a : String) (n : Int),
      stub.getFails c = false → stGet stub.state c = none →
      atoi a = some n → 0 < n →
      transfer stub [c, r, a] =
        some (shim.Error "caller amount must be integer", stub)) ∧
    (∀ (stub : Stub) (c r a bs : String) (n b : Int),
      stub.getFails c = false → stub.getFails r = false →
      stub.putFails c = false → stub.putFails r = false → stub.eventFails = false →
      stGet stub.state c = some bs → atoi bs = some b →
      stGet stub.state r = none → atoi a = some n → 0 < n → 0 ≤ b - n →
      ∃ stub2,
        transfer stub [c, r, a] = some (shim.Success (some "transfer Success"), stub2) ∧
        stGet stub2.state r = some (toString n)) := by
  constructor
  · intro stub c r a n hg hc ha hn
    have hn' : ¬ n ≤ 0 := not_le.mpr hn
    have hb : atoi ((stGet stub.state c).getD "") = none := by rw [hc]; rfl
    simp only [transfer, getState, ha, hg, Bool.false_eq_true, if_false,
      if_neg hn', hb]
  · intro stub c r a bs n b hgc hgr hpc hpr hev hc hb hr ha hn hsuf
    have hb' : atoi ((stGet stub.state c).getD "") = some b := by rw [hc]; exact hb
    have hr' : atoi ((stGet stub.state r).getD "0") = some 0 := by rw [hr]; rfl
    have hwsub : wrap64 (b - n) = b - n := by
      refine wrap64_eq_self _ (by linarith) ?_
      have h1 := (atoi_bounds hb).2
      linarith
    have hok : 0 ≤ wrap64 (b - n) := by rw [hwsub]; exact hsuf
    refine ⟨_, transfer_success_path stub c r a n b 0 hgc hgr hpc hpr hev ha hn hb' hr' hok, ?_⟩
    rw [stGet_stPut_self]
    have hwadd : wrap64 (0 + n) = n := by
      rw [zero_add]
      refine wrap64_eq_self _ (by have h1 := (atoi_bounds ha).1; linarith) ?_
      have h2 := (atoi_bounds ha).2
      linarith
    rw [hwadd]

/-- C2 amended witness: both conjuncts at concrete inputs. -/
theorem C2_amended_witness :
    transfer (noFailStub [("bob", "7")]) ["carol", "bob", "5"] =
      some (shim.Error "caller amount must be integer", noFailStub [("bob", "7")]) ∧
    ∃ stub2,
      transfer (noFailStub [("alice", "10")]) ["alice", "bob", "4"] =
        some (shim.Success (some "transfer Success"), stub2) ∧
      stGet stub2.state "bob" = some (toString (4 : Int)) :=
  ⟨C2_amended.1 (noFailStub [("bob", "7")]) "carol" "bob" "5" 5 rfl rfl rfl (by norm_num),
   C2_amended.2 (noFailStub [("alice", "10")]) "alice" "bob" "4" "10" 4 10
     rfl rfl rfl rfl rfl rfl rfl rfl rfl (by norm_num) (by norm_num)⟩

/-- The state for the 64-bit underflow violation of the insufficiency check:
the caller's stored balance is the minimum 64-bit integer. -/
def c3Stub : Stub := noFailStub [("c", "-9223372036854775808")]

/-- C3 counterexample: with caller balance `-2^63` (parseable, and smaller
than the positive amount 1), the 64-bit subtraction wraps around, the
sufficiency check passes, and the transfer succeeds and writes both keys —
neither the insufficient-funds error nor the no-write guarantee holds. -/
theorem C3_wrap_cx :
    atoi "-9223372036854775808" = some (-(2 ^ 63)) ∧
    (-(2 ^ 63) : Int) < 1 ∧
    (transfer c3Stub ["c", "r", "1"]).map
        (fun res => (res.1.status, stGet res.2.state "c", stGet res.2.state "r")) =
      some (200, some "9223372036854775807", some "1") :=
  ⟨by decide, by norm_num, by decide⟩

/-- C3 amended: when the amount parses as a positive `n`, the caller's stored
balance parses as `b` with `b < n` and no 64-bit underflow (`-2^63 ≤ b - n`,
which holds for every non-negative stored balance), and the recipient's
stored balance is absent or parses as an integer, the transfer fails with the
insufficient-funds error and the state is unchanged. -/
theorem C3_amended (stub : Stub) (c r a bs : String) (n b rb : Int)
    (hgc : stub.getFails c = false) (hgr : stub.getFails r = false)
    (hc : stGet stub.state c = some bs) (hb : atoi bs = some b)
    (hrb : atoi ((stGet stub.state r).getD "0") = some rb)
    (ha : atoi a = some n) (hn : 0 < n)
    (hlt : b < n) (hnow : -(2 ^ 63) ≤ b - n) :
    transfer stub [c, r, a] =
      some (shim.Error "caller\x27s balance is not sufficient", stub) := by
  have hb' : atoi ((stGet stub.state c).getD "") = some b := by rw [hc]; exact hb
  have hw : wrap64 (b - n) = b - n := by
    refine wrap64_eq_self _ hnow ?_
    have h1 := (atoi_bounds hb).2
    linarith
  exact transfer_insufficient stub c r a n b rb hgc hgr ha hn hb' hrb
    (by rw [hw]; linarith)

/-- C3 amended witness: the spec's own test vector, caller balance 10 and
amount 11. -/
theorem C3_amended_witness :
    transfer (noFailStub [("c", "10")]) ["c", "r", "11"] =
      some (shim.Error "caller\x27s balance is not sufficient", noFailStub [("c", "10")]) :=
  C3_amended (noFailStub [("c", "10")]) "c" "r" "11" "10" 11 10 0
    rfl rfl rfl rfl rfl rfl (by norm_num) (by norm_num) (by norm_num)

/-- C5: `balanceOf` returns the stored balance bytes, returns `"0"` for an
absent key, and never fails on absence: for every address whose read
succeeds, the response is a success carrying the stored bytes (defaulted to
`"0"`), and the state is unchanged. -/
theorem C5_balanceOf_never_fails (stub : Stub) (address : String)
    (h : stub.getFails address = false) :
    balanceOf stub [address] =
      some (shim.Success (some ((stGet stub.state address).getD "0")), stub) := by
  cases hg : stGet stub.state address <;> simp [balanceOf, getState, h, hg]

/-- C5 witness: an address never written reads as `"0"`. -/
theorem C5_balanceOf_never_fails_witness :
    balanceOf (noFailStub []) ["alice"] =
      some (shim.Success (some ((stGet (noFailStub []).state "alice").getD "0")),
        noFailStub []) :=
  C5_balanceOf_never_fails (noFailStub []) "alice" rfl

/-- C7: the five unimplemented operations return a no-op success for every
argument list and every starting stub, leaving the stub (hence every key of
the state store) unchanged. -/
theorem C7_unimplemented_noops (stub : Stub) (params : List String) :
    transferFrom stub params = some (shim.Success none, stub) ∧
    increaseAllowance stub params = some (shim.Success none, stub) ∧
    decreaseAllowance stub params = some (shim.Success none, stub) ∧
    mint stub params = some (shim.Success none, stub) ∧
    burn stub params = some (shim.Success none, stub) :=
  ⟨rfl, rfl, rfl, rfl, rfl⟩

/-- The state for the self-transfer 64-bit overflow: the balance is the
maximum 64-bit integer. -/
def c8Stub : Stub := noFailStub [("a", "9223372036854775807")]

/-- C8 counterexample: a self-transfer of the full maximal balance satisfies
the claim's preconditions (`b - amount ≥ 0`), yet the stored result is the
wrapped value `-2`, not `b + amount`. -/
theorem C8_self_transfer_overflow_cx :
    (0 : Int) ≤ 9223372036854775807 - 9223372036854775807 ∧
    (transfer c8Stub ["a", "a", "9223372036854775807"]).map
        (fun res => (res.1.status, stGet res.2.state "a")) = some (200, some "-2") ∧
    ("-2" : String) ≠ toString (9223372036854775807 + 9223372036854775807 : Int) :=
  ⟨by norm_num, by decide, by decide⟩

/-- C8 amended: for every address whose stored balance parses as `b`, and
every positive parsed amount `n` with `b - n ≥ 0` and no 64-bit overflow
(`b + n ≤ 2^63 - 1`), the self-transfer succeeds and leaves the address's
stored balance equal to `b + n`. -/
theorem C8_amended (stub : Stub) (adr amt bs : String) (n b : Int)
    (hg : stub.getFails adr = false) (hp : stub.putFails adr = false)
    (hev : stub.eventFails = false)
    (hbs : stGet stub.state adr = some bs) (hb : atoi bs = some b)
    (ha : atoi amt = some n) (hn : 0 < n)
    (hsuf : 0 ≤ b - n) (hnov : b + n ≤ 2 ^ 63 - 1) :
    ∃ stub2,
      transfer stub [adr, adr, amt] =
        some (shim.Success (some "transfer Success"), stub2) ∧
      stGet stub2.state adr = some (toString (b + n)) := by
  have hb' : atoi ((stGet stub.state adr).getD "") = some b := by rw [hbs]; exact hb
  have hrb' : atoi ((stGet stub.state adr).getD "0") = some b := by rw [hbs]; exact hb
  have hwsub : wrap64 (b - n) = b - n := by
    refine wrap64_eq_self _ (by linarith) ?_
    have h1 := (atoi_bounds hb).2
    linarith
  have hok : 0 ≤ wrap64 (b - n) := by rw [hwsub]; exact hsuf
  refine ⟨_, transfer_success_path stub adr adr amt n b b hg hg hp hp hev ha hn hb' hrb' hok, ?_⟩
  rw [stGet_stPut_self]
  have hwadd : wrap64 (b + n) = b + n := by
    refine wrap64_eq_self _ (by linarith) (by linarith)
  rw [hwadd]

/-- C8 amended witness: balance 10, self-transfer of 5, result 15. -/
theorem C8_amended_witness :
    ∃ stub2,
      transfer (noFailStub [("a", "10")]) ["a", "a", "5"] =
        some (shim.Success (some "transfer Success"), stub2) ∧
      stGet stub2.state "a" = some (toString ((10 : Int) + 5)) :=
  C8_amended (noFailStub [("a", "10")]) "a" "5" "10" 5 10
    rfl rfl rfl rfl rfl rfl (by norm_num) (by norm_num) (by norm_num)

/-- A stub whose every store read and write fails. -/
def c4FailStub : Stub :=
  { state := [("x", "y")], events := [], getFails := fun _ => true,
    putFails := fun _ => true, eventFails := false }

/-- C4 counterexample: with every store write failing, `allowance`
(SetAllowance) still returns success and performs no write — the write
failure is silently swallowed rather than reported. -/
theorem C4_allowance_swallows_cx :
    (allowance c4FailStub ["a", "b", "50"]).map
        (fun res => (res.1.status, res.2.state)) = some (200, [("x", "y")]) := by
  decide

/-- C4 amended: store read failures are propagated as error responses by
`totalSupply`, `balanceOf` and `transfer`, and store write failures by
`Init`; but `allowance` (SetAllowance) ignores the results of its
composite-key construction and of its store write and returns success
regardless. -/
theorem C4_amended :
    (∀ (stub : Stub) (t : String), stub.getFails t = true →
      totalSupply stub [t] =
        some (shim.Error "failed to GetState, error: GetState failed", stub)) ∧
    (∀ (stub : Stub) (adr : String), stub.getFails adr = true →
      balanceOf stub [adr] =
        some (shim.Error "failed to GetState, error: GetState failed", stub)) ∧
    (∀ (stub : Stub) (c r a : String) (n : Int), atoi a = some n → 0 < n →
      stub.getFails c = true →
      transfer stub [c, r, a] =
        some (shim.Error "failed to GetState, error: GetState failed", stub)) ∧
    (∀ (stub : Stub) (tn sym ow amt : String) (v : Nat), parseUint64 amt = some v →
      tn ≠ "" → sym ≠ "" → ow ≠ "" → stub.putFails tn = true →
      Init stub [tn, sym, ow, amt] =
        some (shim.Error "failed to PutState, error: PutState failed", stub)) ∧
    (∀ (stub : Stub) (id name amount : String), (∀ k, stub.putFails k = true) →
      allowance stub [id, name, amount] = some (shim.Success none, stub)) := by
  refine ⟨?_, ?_, ?_, ?_, ?_⟩
  · intro stub t h
    simp [totalSupply, getState, h]
  · intro stub adr h
    simp [balanceOf, getState, h]
  · intro stub c r a n ha hn h
    have hn' : ¬ n ≤ 0 := not_le.mpr hn
    simp [transfer, getState, ha, h, if_neg hn']
  · intro stub tn sym ow amt v hv htn hsym how h
    simp [Init, putState, hv, htn, hsym, how, h]
  · intro stub id name amount h
    have hput : ∀ key, putState stub key amount = Except.error "PutState failed" := by
      intro key
      simp [putState, h key]
    simp only [allowance, hput]

/-- C4 amended witness: all five conjuncts at concrete inputs on a stub
whose every store primitive fails. -/
theorem C4_amended_witness :
    totalSupply c4FailStub ["t"] =
      some (shim.Error "failed to GetState, error: GetState failed", c4FailStub) ∧
    balanceOf c4FailStub ["a"] =
      some (shim.Error "failed to GetState, error: GetState failed", c4FailStub) ∧
    transfer c4FailStub ["c", "r", "5"] =
      some (shim.Error "failed to GetState, error: GetState failed", c4FailStub) ∧
    Init c4FailStub ["tok", "SYM", "alice", "10"] =
      some (shim.Error "failed to PutState, error: PutState failed", c4FailStub) ∧
    allowance c4FailStub ["a", "b", "50"] = some (shim.Success none, c4FailStub) :=
  ⟨C4_amended.1 c4FailStub "t" rfl,
   C4_amended.2.1 c4FailStub "a" rfl,
   C4_amended.2.2.1 c4FailStub "c" "r" "5" 5 rfl (by norm_num) rfl,
   C4_amended.2.2.2.1 c4FailStub "tok" "SYM" "alice" "10" 10 rfl
     (by decide) (by decide) (by decide) rfl,
   C4_amended.2.2.2.2 c4FailStub "a" "b" "50" (fun _ => rfl)⟩

/-- C9 counterexample: `mint` is an operation other than `allowance` and
`approve`, yet it performs no arity check at all: invoked with zero
arguments it returns plain success instead of an arity validation error. -/
theorem C9_mint_no_arity_cx :
    mint (noFailStub []) [] = some (shim.Success none, noFailStub []) := rfl

/-- C9 amended: `allowance` and `approve` perform no argument-count
validation and index past the end of a too-short argument list (a runtime
panic, modelled as `none`), unlike the implemented operations `transfer`,
`totalSupply`, `balanceOf` and `Init`, which check arity first and return a
validation error; the five no-op placeholders perform no validation at all
but touch no arguments. -/
theorem C9_amended :
    (∀ (stub : Stub) (params : List String), params.length < 3 →
      allowance stub params = none) ∧
    (∀ stub : Stub, approve stub [] = none) ∧
    (∀ (stub : Stub) (params : List String), params.length ≠ 3 →
      transfer stub params = some (shim.Error "incorrect number of parameters", stub)) ∧
    (∀ (stub : Stub) (params : List String), params.length ≠ 1 →
      totalSupply stub params = some (shim.Error "incorrect number of parameter", stub)) ∧
    (∀ (stub : Stub) (params : List String), params.length ≠ 1 →
      balanceOf stub params = some (shim.Error "incorrect number of parameters", stub)) ∧
    (∀ (stub : Stub) (params : List String), params.length ≠ 4 →
      Init stub params = some (shim.Error "incorrect number of parameter", stub)) := by
  refine ⟨?_, ?_, ?_, ?_, ?_, ?_⟩
  · intro stub params h
    rcases params with _ | ⟨a, _ | ⟨b, _ | ⟨c, rest⟩⟩⟩
    · rfl
    · rfl
    · rfl
    · simp only [List.length_cons] at h
      omega
  · intro stub
    rfl
  · intro stub params h
    rcases params with _ | ⟨a, _ | ⟨b, _ | ⟨c, _ | ⟨d, rest⟩⟩⟩⟩
    · rfl
    · rfl
    · rfl
    · exact absurd rfl h
    · rfl
  · intro stub params h
    rcases params with _ | ⟨a, _ | ⟨b, rest⟩⟩
    · rfl
    · exact absurd rfl h
    · rfl
  · intro stub params h
    rcases params with _ | ⟨a, _ | ⟨b, rest⟩⟩
    · rfl
    · exact absurd rfl h
    · rfl
  · intro stub params h
    rcases params with _ | ⟨a, _ | ⟨b, _ | ⟨c, _ | ⟨d, _ | ⟨e, rest⟩⟩⟩⟩⟩
    · rfl
    · rfl
    · rfl
    · rfl
    · exact absurd rfl h
    · rfl

/-- C9 amended witness: every conjunct at a concrete short argument list. -/
theorem C9_amended_witness :
    allowance (noFailStub []) ["a"] = none ∧
    approve (noFailStub []) [] = none ∧
    transfer (noFailStub []) [] =
      some (shim.Error "incorrect number of parameters", noFailStub []) ∧
    totalSupply (noFailStub []) [] =
      some (shim.Error "incorrect number of parameter", noFailStub []) ∧
    balanceOf (noFailStub []) [] =
      some (shim.Error "incorrect number of parameters", noFailStub []) ∧
    Init (noFailStub []) [] =
      some (shim.Error "incorrect number of parameter", noFailStub []) :=
  ⟨C9_amended.1 _ ["a"] (by decide),
   C9_amended.2.1 _,
   C9_amended.2.2.1 _ [] (by decide),
   C9_amended.2.2.2.1 _ [] (by decide),
   C9_amended.2.2.2.2.1 _ [] (by decide),
   C9_amended.2.2.2.2.2 _ [] (by decide)⟩

/-- C10: `Init` writes the metadata under `tokenName` and then the owner's
balance under `owner` in the same key space, so with `owner = tokenName` the
balance write overwrites the metadata record, and `totalSupply(tokenName)`
then fails with the decode (Unmarshal) error instead of returning the
supply. -/
theorem C10_init_owner_collision (stub : Stub) (tn sym amt : String) (v : Nat)
    (hv : parseUint64 amt = some v) (htn : tn ≠ "") (hsym : sym ≠ "")
    (hput : stub.putFails tn = false) (hget : stub.getFails tn = false) :
    ∃ stub2,
      Init stub [tn, sym, tn, amt] = some (shim.Success none, stub2) ∧
      stGet stub2.state tn = some amt ∧
      totalSupply stub2 [tn] =
        some (shim.Error "failed to Unmarshal, error: cannot unmarshal into ERC20Metadata",
          stub2) := by
  refine ⟨{ stub with state := stPut (stPut stub.state tn (jsonMarshalMetadata ⟨tn, sym, tn, v⟩)) tn amt }, ?_, ?_, ?_⟩
  · simp [Init, putState, hv, htn, hsym, hput]
  · exact stGet_stPut_self (stPut stub.state tn (jsonMarshalMetadata ⟨tn, sym, tn, v⟩)) tn amt
  · have hgd : stGet (stPut (stPut stub.state tn (jsonMarshalMetadata ⟨tn, sym, tn, v⟩)) tn amt) tn
        = some amt :=
      stGet_stPut_self (stPut stub.state tn (jsonMarshalMetadata ⟨tn, sym, tn, v⟩)) tn amt
    simp [totalSupply, getState, hget, hgd, jsonUnmarshalMetadata_digits hv]

/-- C10 witness: `Init("tok","SYM","tok","1000")` succeeds, stores `"1000"`
under `"tok"`, and `totalSupply("tok")` then fails with the decode error. -/
theorem C10_init_owner_collision_witness :
    ∃ stub2,
      Init (noFailStub []) ["tok", "SYM", "tok", "1000"] = some (shim.Success none, stub2) ∧
      stGet stub2.state "tok" = some "1000" ∧
      totalSupply stub2 ["tok"] =
        some (shim.Error "failed to Unmarshal, error: cannot unmarshal into ERC20Metadata",
          stub2) :=
  C10_init_owner_collision (noFailStub []) "tok" "SYM" "1000" 1000
    rfl (by decide) (by decide) rfl rfl

theorem prefix_cancel_left (p x y : List Char) (h : (p ++ x) <+: (p ++ y)) :
    x <+: y := by
  obtain ⟨t, ht⟩ := h
  rw [List.append_assoc] at ht
  exact ⟨t, List.append_cancel_left ht⟩

/-- C6 counterexample: after `SetAllowance("alice","bob","50")` from a clean
state, `ListAllowances` invoked for the different granter id
`"alice\u0000bob"` (an id containing the composite-key delimiter) returns
alice's entry `{name:"bob",amount:"50"}` — the prefix scan does not isolate
granters whose ids may contain the delimiter. -/
theorem C6_delimiter_granter_cx :
    ("alice\x00bob" : String) ≠ "alice" ∧
    ((allowance (noFailStub []) ["alice", "bob", "50"]).bind
        (fun res => approve res.2 ["alice\x00bob"])).map (fun res => res.1.payload) =
      some (some "[\x7b\"name\":\"bob\",\"amount\":\"50\"\x7d]") :=
  ⟨by decide, by decide⟩

/-- C6 amended: from a state with no allowance entries,
`SetAllowance("alice","bob","50")` followed by `ListAllowances("alice")`
returns exactly the entry `{name:"bob",amount:"50"}`, and `ListAllowances(g)`
returns no entry for any other granter `g` whose id contains neither the
composite-key delimiter U+0000 nor U+10FFFF; granter isolation holds only for
such delimiter-free ids (see the counterexample for an id containing the
delimiter). -/
theorem C6_allowance_listing (stub : Stub)
    (hclean : ∀ kv ∈ stub.state,
      ("\x00insurance\x00" : String).data.isPrefixOf kv.1.data = false)
    (hput : stub.putFails "\x00insurance\x00alice\x00bob\x00" = false) :
    ∃ stub1,
      allowance stub ["alice", "bob", "50"] = some (shim.Success none, stub1) ∧
      stub1.state = stPut stub.state "\x00insurance\x00alice\x00bob\x00" "50" ∧
      approve stub1 ["alice"] =
        some (shim.Success (some "[\x7b\"name\":\"bob\",\"amount\":\"50\"\x7d]"), stub1) ∧
      (∀ g : String, g ≠ "alice" → nulChar ∉ g.data → maxRune ∉ g.data →
        approve stub1 [g] = some (shim.Success (some "[]"), stub1)) := by
  have hck : CreateCompositeKey "insurance" ["alice", "bob"] =
      Except.ok "\x00insurance\x00alice\x00bob\x00" := rfl
  refine ⟨{ stub with state := stPut stub.state "\x00insurance\x00alice\x00bob\x00" "50" },
    ?_, rfl, ?_, ?_⟩
  · simp only [allowance, hck, putState, hput, Bool.false_eq_true, if_false]
  · have hfilA : (stPut stub.state "\x00insurance\x00alice\x00bob\x00" "50").filter
        (fun kv => ("\x00insurance\x00alice\x00" : String).data.isPrefixOf kv.1.data) =
        [("\x00insurance\x00alice\x00bob\x00", "50")] := by
      apply filter_stPut_singleton
      · intro kv hkv
        by_contra hcon
        rw [Bool.not_eq_false] at hcon
        have h2 : ("\x00insurance\x00" : String).data <+:
            ("\x00insurance\x00alice\x00" : String).data :=
          List.isPrefixOf_iff_prefix.mp (by decide)
        have h3 := h2.trans (List.isPrefixOf_iff_prefix.mp hcon)
        rw [← List.isPrefixOf_iff_prefix] at h3
        rw [hclean kv hkv] at h3
        exact Bool.noConfusion h3
      · decide
    have hscanA : getStateByPartialCompositeKey
        { stub with state := stPut stub.state "\x00insurance\x00alice\x00bob\x00" "50" }
        "insurance" ["alice"] =
        Except.ok [("\x00insurance\x00alice\x00bob\x00", "50")] := by
      show Except.ok (sortByKey ((stPut stub.state "\x00insurance\x00alice\x00bob\x00" "50").filter
        (fun kv => ("\x00insurance\x00alice\x00" : String).data.isPrefixOf kv.1.data))) = _
      rw [hfilA]
      rfl
    simp only [approve, hscanA]
    rfl
  · intro g hg hnul hmax
    have hvg : validAttr g = true := by
      rw [validAttr, List.all_eq_true]
      intro c hc
      rw [bne_iff_ne]
      intro he
      exact hmax (he ▸ hc)
    have hcond : (validAttr "insurance" && List.all [g] validAttr) = true := by
      rw [List.all_cons, List.all_nil, hvg]
      decide
    have hpfxg_data : (nulStr ++ "insurance" ++ nulStr ++
        String.join (List.map (fun a => a ++ nulStr) [g])).data =
        ("\x00insurance\x00" : String).data ++ (g.data ++ [nulChar]) := by
      simp only [List.map, String.join, List.foldl_cons, List.foldl_nil,
        str_data_append, nulStr, List.append_assoc]
      rfl
    have hfilG : (stPut stub.state "\x00insurance\x00alice\x00bob\x00" "50").filter
        (fun kv => (nulStr ++ "insurance" ++ nulStr ++
          String.join (List.map (fun a => a ++ nulStr) [g])).data.isPrefixOf kv.1.data) = [] := by
      apply filter_stPut_nil
      · intro kv hkv
        by_contra hcon
        rw [Bool.not_eq_false, List.isPrefixOf_iff_prefix, hpfxg_data] at hcon
        have h2 : ("\x00insurance\x00" : String).data <+:
            (("\x00insurance\x00" : String).data ++ (g.data ++ [nulChar])) :=
          ⟨g.data ++ [nulChar], rfl⟩
        have h3 := h2.trans hcon
        rw [← List.isPrefixOf_iff_prefix] at h3
        rw [hclean kv hkv] at h3
        exact Bool.noConfusion h3
      · by_contra hcon
        rw [Bool.not_eq_false, List.isPrefixOf_iff_prefix, hpfxg_data] at hcon
        have hsplit : ("\x00insurance\x00alice\x00bob\x00" : String).data =
            ("\x00insurance\x00" : String).data ++
              (("alice" : String).data ++ nulChar :: ("bob\x00" : String).data) := by
          decide
        rw [hsplit] at hcon
        have h4 := prefix_cancel_left _ _ _ hcon
        have h5 := noNul_prefix_eq g.data ("alice" : String).data ("bob\x00" : String).data
          hnul (by decide) h4
        exact hg (String.ext h5)
    have hscanG : getStateByPartialCompositeKey
        { stub with state := stPut stub.state "\x00insurance\x00alice\x00bob\x00" "50" }
        "insurance" [g] = Except.ok [] := by
      unfold getStateByPartialCompositeKey CreateCompositeKey
      rw [if_pos hcond]
      show Except.ok (sortByKey ((stPut stub.state "\x00insurance\x00alice\x00bob\x00" "50").filter
        (fun kv => (nulStr ++ "insurance" ++ nulStr ++
          String.join (List.map (fun a => a ++ nulStr) [g])).data.isPrefixOf kv.1.data))) = _
      rw [hfilG]
      rfl
    simp only [approve, hscanG]
    rfl

/-- C6 amended witness: the scenario from the empty world state. -/
theorem C6_allowance_listing_witness :
    ∃ stub1,
      allowance (noFailStub []) ["alice", "bob", "50"] = some (shim.Success none, stub1) ∧
      stub1.state = stPut [] "\x00insurance\x00alice\x00bob\x00" "50" ∧
      approve stub1 ["alice"] =
        some (shim.Success (some "[\x7b\"name\":\"bob\",\"amount\":\"50\"\x7d]"), stub1) ∧
      (∀ g : String, g ≠ "alice" → nulChar ∉ g.data → maxRune ∉ g.data →
        approve stub1 [g] = some (shim.Success (some "[]"), stub1)) :=
  C6_allowance_listing (noFailStub []) (fun kv hkv => absurd hkv (List.not_mem_nil kv)) rfl

/-- C7 witness: the no-ops at a concrete stub and argument list. -/
theorem C7_unimplemented_noops_witness :
    transferFrom (noFailStub []) ["x"] = some (shim.Success none, noFailStub []) ∧
    increaseAllowance (noFailStub []) ["x"] = some (shim.Success none, noFailStub []) ∧
    decreaseAllowance (noFailStub []) ["x"] = some (shim.Success none, noFailStub []) ∧
    mint (noFailStub []) ["x"] = some (shim.Success none, noFailStub []) ∧
    burn (noFailStub []) ["x"] = some (shim.Success none, noFailStub []) :=
  C7_unimplemented_noops (noFailStub []) ["x"]
